import Mathlib

/-!
Shallow embedding of `src/src/dynamic_table.rs` (crate `tynyptr`):
a generational tiny-pointer table with slots, a free list, capacity
doubling, and generation-based validity checks.

Machine integers: the Rust `index` and `generation` fields are `u32`;
they are modelled as `Nat` together with explicit reduction modulo
`2^32` exactly where the Rust code truncates (`idx as u32`) or wraps
(`generation.wrapping_add(1)`).  `Vec<T>` is modelled as `List T`,
`Box<T>` is transparent, and the two panicking paths of the Rust code
(`assert!` in `new`, the `expect`/index panics in `allocate`) are
modelled by `Option` results.
-/

/-- `2^32`, the modulus of the Rust `u32` fields. -/
def u32Size : Nat := 4294967296

/-- `TinyPointer` (src/src/dynamic_table.rs, lines 46-64): an index
(`u32`, returned by `index()` as `usize`) plus a generation counter
(`u32`). -/
structure TinyPointer where
  index : Nat
  generation : Nat
deriving DecidableEq, Repr

/-- `Slot<T>` (src/src/dynamic_table.rs, lines 77-80): an optional
value together with a generation counter. -/
structure Slot (T : Type) where
  value : Option T
  generation : Nat
deriving DecidableEq, Repr

/-- `DynamicTinyPointerTable<T>` (src/src/dynamic_table.rs, lines
88-91): a vector of slots plus a free list of slot indices. -/
structure DynamicTinyPointerTable (T : Type) where
  slots : List (Slot T)
  free_list : List Nat
deriving DecidableEq, Repr

namespace DynamicTinyPointerTable

/-- `new` (lines 99-108).  The Rust code `assert!`s (panics) when
`initial_capacity == 0`; the panic is modelled as `none`.  The loop
pushes `initial_capacity` slots `{value: None, generation: 0}` and the
indices `0, 1, ..., initial_capacity - 1`. -/
def new (T : Type) (initial_capacity : Nat) : Option (DynamicTinyPointerTable T) :=
  if initial_capacity = 0 then none
  else some { slots := List.replicate initial_capacity { value := none, generation := 0 },
              free_list := List.range initial_capacity }

/-- `capacity` (lines 112-114): `self.slots.len()`. -/
def capacity {T : Type} (t : DynamicTinyPointerTable T) : Nat :=
  t.slots.length

/-- `allocated` (lines 118-120): `self.slots.len() - self.free_list.len()`. -/
def allocated {T : Type} (t : DynamicTinyPointerTable T) : Nat :=
  t.slots.length - t.free_list.length

/-- `resize` (lines 191-199): doubles capacity, pushing
`new_capacity - old_capacity` fresh slots `{value: None, generation: 0}`
and the indices `old_capacity, ..., new_capacity - 1` onto the free
list. -/
def resize {T : Type} (t : DynamicTinyPointerTable T) : DynamicTinyPointerTable T :=
  { slots := t.slots ++ List.replicate t.slots.length { value := none, generation := 0 },
    free_list := t.free_list ++ List.range' t.slots.length t.slots.length }

/-- The slot index that `allocate` (lines 132-142) pops: the last entry
of the free list, after the resize that `allocate` performs when the
free list is empty (`Vec::pop` removes the last element). -/
def chosenIndex {T : Type} (t : DynamicTinyPointerTable T) : Option Nat :=
  (if t.free_list.isEmpty then t.resize else t).free_list.getLast?

/-- The second half of `allocate` (lines 136-141), after the
resize-when-empty step: pops a free index `idx` (`Vec::pop` takes the
last element), stores the value there, and returns a pointer holding
`idx as u32` (modelled as `idx % u32Size`) and the slot's current
generation.  Both panicking paths (`expect` on an empty free list,
out-of-range `self.slots[idx]`) are modelled as `none`. -/
def allocateAt {T : Type} (t1 : DynamicTinyPointerTable T) (value : T) :
    Option (TinyPointer × DynamicTinyPointerTable T) :=
  match t1.free_list.getLast? with
  | none => none
  | some idx =>
    match t1.slots[idx]? with
    | none => none
    | some slot =>
      some ({ index := idx % u32Size, generation := slot.generation },
            { slots := t1.slots.set idx { value := some value, generation := slot.generation },
              free_list := t1.free_list.dropLast })

/-- `allocate` (lines 132-142): resizes when the free list is empty,
then pops a free index and stores the value there (`allocateAt`). -/
def allocate {T : Type} (t : DynamicTinyPointerTable T) (value : T) :
    Option (TinyPointer × DynamicTinyPointerTable T) :=
  allocateAt (if t.free_list.isEmpty then t.resize else t) value

/-- `get` (lines 146-154): `slots.get(ptr.index())`, then the value if
the slot's generation equals the pointer's, else `None`. -/
def get {T : Type} (t : DynamicTinyPointerTable T) (ptr : TinyPointer) : Option T :=
  match t.slots[ptr.index]? with
  | none => none
  | some slot => if slot.generation = ptr.generation then slot.value else none

/-- `get_mut` (lines 158-166): same matching rule as `get`; modelled by
the value the mutable reference would expose. -/
def get_mut {T : Type} (t : DynamicTinyPointerTable T) (ptr : TinyPointer) : Option T :=
  match t.slots[ptr.index]? with
  | none => none
  | some slot => if slot.generation = ptr.generation then slot.value else none

/-- `free` (lines 172-186): if `ptr.index()` is in range and the slot's
generation equals the pointer's, takes the slot's value (even when the
slot is already empty), bumps the generation with `wrapping_add(1)`
(modelled as `(g+1) % u32Size`), and pushes the index onto the free
list; otherwise returns `None` and leaves the table unchanged.  The
returned pair is (returned value, table after the call). -/
def free {T : Type} (t : DynamicTinyPointerTable T) (ptr : TinyPointer) :
    Option T × DynamicTinyPointerTable T :=
  match t.slots[ptr.index]? with
  | none => (none, t)
  | some slot =>
    if slot.generation = ptr.generation then
      (slot.value,
       { slots := t.slots.set ptr.index
           { value := none, generation := (slot.generation + 1) % u32Size },
         free_list := t.free_list ++ [ptr.index] })
    else (none, t)

/-- Whether the slot at index `i` exists and is free (holds no value). -/
def isFree {T : Type} (t : DynamicTinyPointerTable T) (i : Nat) : Bool :=
  match t.slots[i]? with
  | none => false
  | some slot => slot.value.isNone

/-- The table invariant of spec §3: every free-list entry is an
in-range index of a free slot, a slot is free iff its index is on the
free list, and the free list has no duplicates. -/
def WF {T : Type} (t : DynamicTinyPointerTable T) : Prop :=
  (∀ i ∈ t.free_list, i < t.slots.length) ∧
  (∀ i, i < t.slots.length → (isFree t i = true ↔ i ∈ t.free_list)) ∧
  t.free_list.Nodup

instance {T : Type} (t : DynamicTinyPointerTable T) : Decidable (WF t) := by
  unfold WF; infer_instance

end DynamicTinyPointerTable

/-! ### Concrete tables and an allocate/free cycle, used by the
concrete theorems below -/

/-- A sample occupied one-slot table used by concrete witnesses. -/
def occTable : DynamicTinyPointerTable Nat := ⟨[⟨some 5, 0⟩], []⟩

/-- A sample pointer used by concrete witnesses. -/
def p00 : TinyPointer := ⟨0, 0⟩

/-- A sample one-slot all-free table used by concrete witnesses. -/
def freeTable : DynamicTinyPointerTable Nat := ⟨[⟨none, 0⟩], [0]⟩

/-- A table of `2^32 + 1` slots whose free list holds only the index
`2^32` (such a free list arises when all other slots are occupied). -/
def bigTable : DynamicTinyPointerTable Nat :=
  ⟨List.replicate (u32Size + 1) ⟨none, 0⟩, [u32Size]⟩

/-- A table of `2^32 + 1` slots whose free list holds only index 0. -/
def bigTable0 : DynamicTinyPointerTable Nat :=
  ⟨List.replicate (u32Size + 1) ⟨none, 0⟩, [0]⟩

/-- The table `bigTable.allocate 5` produces. -/
def bigTableAlloc : DynamicTinyPointerTable Nat :=
  ⟨(List.replicate (u32Size + 1) (⟨none, 0⟩ : Slot Nat)).set u32Size ⟨some 5, 0⟩, []⟩

/-- One full `allocate`/`free` cycle on a table, using only the handle
that the `allocate` itself issued (the identity when `allocate` would
panic).  Iterating it advances a one-slot table's generation by one per
cycle. -/
def step (t : DynamicTinyPointerTable Nat) : DynamicTinyPointerTable Nat :=
  match t.allocate 0 with
  | some p => (p.2.free p.1).2
  | none => t

/-! ### Unfolding lemmas for the operations -/

/-- A successful `free` call decomposes into a matching slot, the value
returned, and the updated table. -/
lemma free_some_elim {T : Type} {t t' : DynamicTinyPointerTable T} {p : TinyPointer} {v : T}
    (hf : t.free p = (some v, t')) :
    ∃ s : Slot T, t.slots[p.index]? = some s ∧ s.generation = p.generation ∧
      s.value = some v ∧
      t' = ⟨t.slots.set p.index ⟨none, (s.generation + 1) % u32Size⟩,
            t.free_list ++ [p.index]⟩ := by
  unfold DynamicTinyPointerTable.free at hf
  split at hf
  · simp at hf
  · rename_i s hs
    split at hf
    · rename_i hg
      rw [Prod.ext_iff] at hf
      exact ⟨s, hs, hg, hf.1, hf.2.symm⟩
    · simp at hf

/-- `free` on a matching slot: explicit result. -/
lemma free_eq_of_match {T : Type} {t : DynamicTinyPointerTable T} {p : TinyPointer} {s : Slot T}
    (hs : t.slots[p.index]? = some s) (hg : s.generation = p.generation) :
    t.free p = (s.value,
      ⟨t.slots.set p.index ⟨none, (s.generation + 1) % u32Size⟩,
       t.free_list ++ [p.index]⟩) := by
  unfold DynamicTinyPointerTable.free
  rw [hs]
  simp [hg]

/-- `free` on a generation mismatch: no result, no mutation. -/
lemma free_eq_of_mismatch {T : Type} {t : DynamicTinyPointerTable T} {p : TinyPointer} {s : Slot T}
    (hs : t.slots[p.index]? = some s) (hg : s.generation ≠ p.generation) :
    t.free p = (none, t) := by
  unfold DynamicTinyPointerTable.free
  rw [hs]
  simp [hg]

/-- `free` on an out-of-range index: no result, no mutation. -/
lemma free_eq_of_oob {T : Type} {t : DynamicTinyPointerTable T} {p : TinyPointer}
    (hs : t.slots[p.index]? = none) :
    t.free p = (none, t) := by
  unfold DynamicTinyPointerTable.free
  rw [hs]

/-- A successful `allocateAt` call decomposes into the popped index,
the slot that was read, the returned pointer, and the updated table. -/
lemma allocateAt_some_elim {T : Type} {t1 t' : DynamicTinyPointerTable T} {v : T}
    {p : TinyPointer} (ha : t1.allocateAt v = some (p, t')) :
    ∃ (idx : Nat) (s : Slot T), t1.free_list.getLast? = some idx ∧
      t1.slots[idx]? = some s ∧
      p = ⟨idx % u32Size, s.generation⟩ ∧
      t' = ⟨t1.slots.set idx ⟨some v, s.generation⟩, t1.free_list.dropLast⟩ := by
  unfold DynamicTinyPointerTable.allocateAt at ha
  split at ha
  · simp at ha
  · rename_i idx hl
    split at ha
    · simp at ha
    · rename_i s hs
      rw [Option.some_inj, Prod.ext_iff] at ha
      exact ⟨idx, s, hl, hs, ha.1.symm, ha.2.symm⟩

/-- `allocateAt` at a known last free index and slot: explicit result. -/
lemma allocateAt_eq {T : Type} {t1 : DynamicTinyPointerTable T} {v : T} {idx : Nat} {s : Slot T}
    (hl : t1.free_list.getLast? = some idx) (hs : t1.slots[idx]? = some s) :
    t1.allocateAt v = some (⟨idx % u32Size, s.generation⟩,
      ⟨t1.slots.set idx ⟨some v, s.generation⟩, t1.free_list.dropLast⟩) := by
  unfold DynamicTinyPointerTable.allocateAt
  rw [hl]
  simp [hs]

/-- `allocate` on a table with a non-empty free list skips the resize. -/
lemma allocate_of_not_empty {T : Type} {t : DynamicTinyPointerTable T} (v : T)
    (h : t.free_list.isEmpty = false) :
    t.allocate v = t.allocateAt v := by
  unfold DynamicTinyPointerTable.allocate
  rw [h]; rfl

/-! ### C2 and C8 -/

/-- C2: `get(h)` (and `get_mut(h)` under the same rule) returns the
stored value iff `h.index < capacity`, the slot at `h.index` is
occupied with that value, and `h.generation` equals the slot's
generation (the `∃ s, slots[h.index]? = some s ∧ ...` form packages
exactly these three conditions); in every other case both return
absence (the negation of the right-hand side), and both are total
functions, so they never fail.  The last conjunct records that a
successful `get` implies the index is within capacity. -/
theorem get_valid_iff (T : Type) (t : DynamicTinyPointerTable T) (p : TinyPointer) (v : T) :
    (t.get p = some v ↔
      ∃ s : Slot T, t.slots[p.index]? = some s ∧ s.value = some v ∧
        s.generation = p.generation) ∧
    (t.get_mut p = some v ↔
      ∃ s : Slot T, t.slots[p.index]? = some s ∧ s.value = some v ∧
        s.generation = p.generation) ∧
    ((t.get p).isSome = true → p.index < t.capacity) := by
  have key : ∀ o : Option (Slot T),
      (match o with
        | none => none
        | some slot => if slot.generation = p.generation then slot.value else none) = some v ↔
      ∃ s : Slot T, o = some s ∧ s.value = some v ∧ s.generation = p.generation := by
    intro o
    cases o with
    | none => simp
    | some s =>
      by_cases hg : s.generation = p.generation <;> simp [hg]
  refine ⟨key _, key _, ?_⟩
  intro hs
  unfold DynamicTinyPointerTable.get at hs
  cases hx : t.slots[p.index]? with
  | none => rw [hx] at hs; simp at hs
  | some s => exact (List.getElem?_eq_some_iff.mp hx).1

/-- Witness for C2 at a concrete table. -/
theorem get_valid_iff_witness :
    (occTable.get p00 = some 5 ↔
      ∃ s : Slot Nat, occTable.slots[p00.index]? = some s ∧ s.value = some 5 ∧
        s.generation = p00.generation) ∧
    p00.index < occTable.capacity :=
  ⟨(get_valid_iff Nat occTable p00 5).1,
   (get_valid_iff Nat occTable p00 5).2.2 (by decide)⟩

/-- C8: for `initial_capacity = c > 0`, `new(c)` yields a table of
capacity `c` whose slots are all free at generation 0 and whose free
list holds each index `0..c` exactly once, so `allocated() = 0`; for
`c = 0` the Rust `assert!` fires (modelled as `none`), an immediate
unrecoverable failure rather than a normal result. -/
theorem new_spec (T : Type) :
    (∀ c : Nat, 0 < c →
      ∃ t : DynamicTinyPointerTable T, DynamicTinyPointerTable.new T c = some t ∧
        t.capacity = c ∧ t.allocated = 0 ∧
        (∀ i, i < c → t.slots[i]? = some ⟨none, 0⟩) ∧
        (∀ i, i ∈ t.free_list ↔ i < c) ∧
        t.free_list.Nodup) ∧
    DynamicTinyPointerTable.new T 0 = none := by
  constructor
  · intro c hc
    refine ⟨⟨List.replicate c ⟨none, 0⟩, List.range c⟩, ?_, ?_, ?_, ?_, ?_, ?_⟩
    · unfold DynamicTinyPointerTable.new
      rw [if_neg (Nat.pos_iff_ne_zero.mp hc)]
    · simp [DynamicTinyPointerTable.capacity]
    · simp [DynamicTinyPointerTable.allocated]
    · intro i hi; simp [List.getElem?_replicate, hi]
    · intro i; exact List.mem_range
    · exact List.nodup_range c
  · rfl

/-- Witness for C8 at `c = 2`. -/
theorem new_spec_witness :
    0 < 2 ∧
    ∃ t : DynamicTinyPointerTable Nat, DynamicTinyPointerTable.new Nat 2 = some t ∧
      t.capacity = 2 ∧ t.allocated = 0 ∧
      (∀ i, i < 2 → t.slots[i]? = some ⟨none, 0⟩) ∧
      (∀ i, i ∈ t.free_list ↔ i < 2) ∧
      t.free_list.Nodup :=
  ⟨by decide, (new_spec Nat).1 2 (by decide)⟩

/-- `get_mut` applies the very same matching rule as `get`. -/
lemma get_mut_eq_get {T : Type} (t : DynamicTinyPointerTable T) (p : TinyPointer) :
    t.get_mut p = t.get p := rfl

/-! ### C7: resize contract and capacity monotonicity -/

/-- C7: `resize()` doubles the capacity, appends the new slots free at
generation 0 with their indices pushed onto the free list, leaves every
pre-existing slot (value and generation) unchanged, and preserves the
result of `get`/`get_mut` on every pointer; `free` never changes the
capacity and a successful `allocate` never decreases it, so capacity is
non-decreasing across any sequence of operations (`get`/`get_mut` do
not touch the slot vector or free list at all). -/
theorem resize_spec (T : Type) (t : DynamicTinyPointerTable T) :
    t.resize.capacity = 2 * t.capacity ∧
    (∀ i, i < t.capacity → t.resize.slots[i]? = t.slots[i]?) ∧
    (∀ i, t.capacity ≤ i → i < 2 * t.capacity → t.resize.slots[i]? = some ⟨none, 0⟩) ∧
    t.resize.free_list = t.free_list ++ List.range' t.capacity t.capacity ∧
    (∀ p : TinyPointer, t.resize.get p = t.get p ∧ t.resize.get_mut p = t.get_mut p) ∧
    (∀ p : TinyPointer, (t.free p).2.capacity = t.capacity) ∧
    (∀ (v : T) (p : TinyPointer) (t' : DynamicTinyPointerTable T),
      t.allocate v = some (p, t') → t.capacity ≤ t'.capacity) := by
  have hleft : ∀ i, i < t.capacity → t.resize.slots[i]? = t.slots[i]? := by
    intro i hi
    exact List.getElem?_append_left hi
  have hright : ∀ i, t.capacity ≤ i → i < 2 * t.capacity →
      t.resize.slots[i]? = some ⟨none, 0⟩ := by
    intro i h1 h2
    show (t.slots ++ _)[i]? = _
    rw [List.getElem?_append_right h1, List.getElem?_replicate]
    have : i - t.slots.length < t.slots.length := by
      unfold DynamicTinyPointerTable.capacity at h1 h2; omega
    rw [if_pos this]
  have hget : ∀ p : TinyPointer, t.resize.get p = t.get p := by
    intro p
    cases hx : t.slots[p.index]? with
    | some s =>
      have hi : p.index < t.capacity := (List.getElem?_eq_some_iff.mp hx).1
      unfold DynamicTinyPointerTable.get
      rw [hleft p.index hi]
    | none =>
      have hi : t.capacity ≤ p.index := List.getElem?_eq_none_iff.mp hx
      by_cases h2 : p.index < 2 * t.capacity
      · unfold DynamicTinyPointerTable.get
        rw [hx, hright p.index hi h2]
        simp
      · have hz : t.resize.slots[p.index]? = none := by
          rw [List.getElem?_eq_none_iff]
          show t.resize.slots.length ≤ p.index
          have : t.resize.slots.length = 2 * t.capacity := by
            simp [DynamicTinyPointerTable.resize, DynamicTinyPointerTable.capacity]
            omega
          omega
        unfold DynamicTinyPointerTable.get
        rw [hx, hz]
  refine ⟨?_, hleft, hright, rfl, ?_, ?_, ?_⟩
  · show (t.slots ++ _).length = _
    simp [DynamicTinyPointerTable.capacity]
    omega
  · exact fun p => ⟨hget p, ((get_mut_eq_get _ p).trans (hget p)).trans (get_mut_eq_get t p).symm⟩
  · intro p
    cases hx : t.slots[p.index]? with
    | none => rw [free_eq_of_oob hx]
    | some s =>
      by_cases hg : s.generation = p.generation
      · rw [free_eq_of_match hx hg]
        simp [DynamicTinyPointerTable.capacity]
      · rw [free_eq_of_mismatch hx hg]
  · intro v p t' ha
    obtain ⟨idx, s, hl, hs, hp, ht'⟩ := allocateAt_some_elim ha
    subst ht'
    by_cases hem : t.free_list.isEmpty = true <;>
      · simp [hem, DynamicTinyPointerTable.capacity, DynamicTinyPointerTable.resize]
        try omega

/-- Witness for C7 at a concrete table. -/
theorem resize_spec_witness :
    freeTable.resize.slots[0]? = freeTable.slots[0]? ∧
    freeTable.resize.slots[1]? = some ⟨none, 0⟩ ∧
    freeTable.capacity ≤ DynamicTinyPointerTable.capacity ⟨[⟨some 5, 0⟩], []⟩ :=
  ⟨(resize_spec Nat freeTable).2.1 0 (by decide),
   (resize_spec Nat freeTable).2.2.1 1 (by decide) (by decide),
   (resize_spec Nat freeTable).2.2.2.2.2.2 5 ⟨0, 0⟩ ⟨[⟨some 5, 0⟩], []⟩ (by decide)⟩

/-! ### C10: LIFO free-list reuse -/

/-- C10: a successful `free(h)` pushes `h.index` onto the end of the
free list, so the next `allocate` pops exactly that index
(`chosenIndex` is the last free-list entry) and returns a handle whose
index equals `h.index()` (the `h.index < 2^32` hypothesis holds for
every handle the code can build, since the Rust field is a `u32`). -/
theorem lifo_reuse (T : Type) (t t' : DynamicTinyPointerTable T) (p : TinyPointer) (v w : T)
    (hf : t.free p = (some v, t')) (hidx : p.index < u32Size) :
    t'.free_list = t.free_list ++ [p.index] ∧
    t'.chosenIndex = some p.index ∧
    ∃ (q : TinyPointer) (t'' : DynamicTinyPointerTable T),
      t'.allocate w = some (q, t'') ∧ q.index = p.index := by
  obtain ⟨s, hs, hg, hv, ht'⟩ := free_some_elim hf
  subst ht'
  have hlen : p.index < t.slots.length := (List.getElem?_eq_some_iff.mp hs).1
  have hfl : (t.free_list ++ [p.index]).getLast? = some p.index := by simp
  have hne : (t.free_list ++ [p.index]).isEmpty = false := by simp
  have hs2 : (t.slots.set p.index ⟨none, (s.generation + 1) % u32Size⟩)[p.index]? =
      some ⟨none, (s.generation + 1) % u32Size⟩ := List.getElem?_set_self hlen
  refine ⟨rfl, ?_, ?_⟩
  · unfold DynamicTinyPointerTable.chosenIndex
    simp [hne]
  · refine ⟨⟨p.index % u32Size, (s.generation + 1) % u32Size⟩,
      ⟨(t.slots.set p.index ⟨none, (s.generation + 1) % u32Size⟩).set p.index
         ⟨some w, (s.generation + 1) % u32Size⟩,
       (t.free_list ++ [p.index]).dropLast⟩, ?_, ?_⟩
    · rw [allocate_of_not_empty w hne, allocateAt_eq hfl hs2]
    · exact Nat.mod_eq_of_lt hidx

/-- Witness for C10 at a concrete table. -/
theorem lifo_reuse_witness :
    (occTable.free p00).2.free_list = occTable.free_list ++ [p00.index] ∧
    (occTable.free p00).2.chosenIndex = some p00.index ∧
    ∃ (q : TinyPointer) (t'' : DynamicTinyPointerTable Nat),
      (occTable.free p00).2.allocate 7 = some (q, t'') ∧ q.index = p00.index :=
  lifo_reuse Nat occTable (occTable.free p00).2 p00 5 7 (by decide) (by decide)

/-! ### C9: u32 truncation of the stored index, C4, C1 -/

/-- Allocating into slot `2^32` yields the pointer `⟨0, 0⟩`: the slot
index is truncated to 32 bits. -/
lemma bigTable_allocate : bigTable.allocate 5 = some (⟨0, 0⟩, bigTableAlloc) := by
  have hne : bigTable.free_list.isEmpty = false := rfl
  have hl : bigTable.free_list.getLast? = some u32Size := List.getLast?_singleton u32Size
  have hs : bigTable.slots[u32Size]? = some ⟨none, 0⟩ := by
    show (List.replicate (u32Size + 1) _)[u32Size]? = _
    rw [List.getElem?_replicate, if_pos (Nat.lt_succ_self u32Size)]
  rw [allocate_of_not_empty 5 hne, allocateAt_eq hl hs]
  simp [Nat.mod_self, bigTableAlloc, bigTable]

/-- Allocating into slot `0` of `bigTable0` also yields `⟨0, 0⟩`. -/
lemma bigTable0_allocate : bigTable0.allocate 5 =
    some (⟨0, 0⟩, ⟨(List.replicate (u32Size + 1) (⟨none, 0⟩ : Slot Nat)).set 0 ⟨some 5, 0⟩, []⟩) := by
  have hne : bigTable0.free_list.isEmpty = false := rfl
  have hl : bigTable0.free_list.getLast? = some 0 := List.getLast?_singleton 0
  have hs : bigTable0.slots[(0 : Nat)]? = some ⟨none, 0⟩ := by
    show (List.replicate (u32Size + 1) _)[(0 : Nat)]? = _
    rw [List.getElem?_replicate, if_pos (Nat.succ_pos u32Size)]
  rw [allocate_of_not_empty 5 hne, allocateAt_eq hl hs]
  simp [bigTable0]

/-- C9: `allocate` stores the popped slot index as a 32-bit value: the
returned pointer's `index` is the chosen index modulo `2^32`, and it
equals the chosen index iff that index is below `2^32`.  For a table
grown past `2^32` slots this makes handles for distinct slots collide:
`bigTable`'s allocation goes to slot `2^32` and `bigTable0`'s to slot
`0` (two different slots), yet both return the pointer `⟨0, 0⟩`. -/
theorem allocate_truncation (T : Type) :
    (∀ (t t' : DynamicTinyPointerTable T) (v : T) (p : TinyPointer) (i : Nat),
      t.allocate v = some (p, t') → t.chosenIndex = some i →
        p.index = i % u32Size ∧ (p.index = i ↔ i < u32Size)) ∧
    bigTable.chosenIndex = some u32Size ∧
    bigTable0.chosenIndex = some 0 ∧
    u32Size ≠ 0 ∧
    (bigTable.allocate 5).map Prod.fst = some ⟨0, 0⟩ ∧
    (bigTable0.allocate 5).map Prod.fst = some ⟨0, 0⟩ := by
  refine ⟨?_, ?_, ?_, by simp [u32Size], ?_, ?_⟩
  · intro t t' v p i ha hc
    unfold DynamicTinyPointerTable.allocate at ha
    unfold DynamicTinyPointerTable.chosenIndex at hc
    obtain ⟨idx, s, hl, hs, hp, ht'⟩ := allocateAt_some_elim ha
    rw [hl] at hc
    cases hc
    subst hp
    refine ⟨rfl, ?_, Nat.mod_eq_of_lt⟩
    intro h
    have h' : i % u32Size = i := h
    have hm : i % u32Size < u32Size := Nat.mod_lt i (by simp [u32Size])
    exact h' ▸ hm
  · simp [DynamicTinyPointerTable.chosenIndex, bigTable]
  · simp [DynamicTinyPointerTable.chosenIndex, bigTable0]
  · rw [bigTable_allocate]; rfl
  · rw [bigTable0_allocate]; rfl

/-- Witness for C9 at a concrete small table. -/
theorem allocate_truncation_witness :
    p00.index = 0 % u32Size ∧ (p00.index = 0 ↔ 0 < u32Size) :=
  (allocate_truncation Nat).1 freeTable ⟨[⟨some 7, 0⟩], []⟩ 7 p00 0 (by decide) (by decide)

/-- C4 counterexample: on the `2^32 + 1`-slot table, `allocate(5)` goes
to slot `2^32` but hands back the pointer `⟨0, 0⟩`; freeing that
pointer matches the (still free) slot `0` and returns `None`,
not `Some 5`. -/
theorem allocate_free_roundtrip_cex :
    bigTable.allocate 5 = some (⟨0, 0⟩, bigTableAlloc) ∧
    (bigTableAlloc.free ⟨0, 0⟩).1 = none := by
  refine ⟨bigTable_allocate, ?_⟩
  have hs0 : bigTableAlloc.slots[(⟨0, 0⟩ : TinyPointer).index]? = some ⟨none, 0⟩ := by
    show ((List.replicate (u32Size + 1) _).set u32Size _)[(0 : Nat)]? = _
    rw [List.getElem?_set_ne (by simp [u32Size]), List.getElem?_replicate,
      if_pos (Nat.succ_pos u32Size)]
  rw [free_eq_of_match hs0 rfl]

/-- C4 corrected: provided every slot index fits in 32 bits even after
the resize that `allocate` may trigger (`2 * capacity ≤ 2^32`), the
handle just returned by `allocate(v)` frees back to exactly `Some v`. -/
theorem allocate_free_roundtrip (T : Type) (t t' : DynamicTinyPointerTable T)
    (v : T) (p : TinyPointer)
    (hcap : 2 * t.capacity ≤ u32Size)
    (ha : t.allocate v = some (p, t')) :
    (t'.free p).1 = some v := by
  unfold DynamicTinyPointerTable.allocate at ha
  obtain ⟨idx, s, hl, hs, hp, ht'⟩ := allocateAt_some_elim ha
  have hlen : (if t.free_list.isEmpty then t.resize else t).slots.length ≤ u32Size := by
    unfold DynamicTinyPointerTable.capacity at hcap
    by_cases hem : t.free_list.isEmpty = true <;>
      · simp [hem, DynamicTinyPointerTable.resize]
        omega
  have hidxlt : idx < (if t.free_list.isEmpty then t.resize else t).slots.length :=
    (List.getElem?_eq_some_iff.mp hs).1
  have hmod : idx % u32Size = idx := Nat.mod_eq_of_lt (lt_of_lt_of_le hidxlt hlen)
  subst hp ht'
  have hproj : (⟨idx % u32Size, s.generation⟩ : TinyPointer).index = idx := hmod
  have hs' : ((if t.free_list.isEmpty then t.resize else t).slots.set idx
      ⟨some v, s.generation⟩)[(⟨idx % u32Size, s.generation⟩ : TinyPointer).index]? =
      some ⟨some v, s.generation⟩ := by
    rw [hproj]
    exact List.getElem?_set_self hidxlt
  rw [free_eq_of_match hs' rfl]

/-- Witness for the corrected C4 at a concrete table. -/
theorem allocate_free_roundtrip_witness :
    2 * freeTable.capacity ≤ u32Size ∧
    ((⟨[⟨some 5, 0⟩], []⟩ : DynamicTinyPointerTable Nat).free ⟨0, 0⟩).1 = some 5 :=
  ⟨by decide,
   allocate_free_roundtrip Nat freeTable ⟨[⟨some 5, 0⟩], []⟩ 5 ⟨0, 0⟩ (by decide) (by decide)⟩

/-- C1 counterexample: on the reachable table `new(1)`, the handle
`⟨0, 0⟩` does not match (its slot is already free), and `free` indeed
returns absence — but it still mutates the table: the generation
becomes 1 and the index 0 is pushed onto the free list a second time. -/
theorem free_mutates_cex :
    DynamicTinyPointerTable.new Nat 1 = some freeTable ∧
    DynamicTinyPointerTable.isFree freeTable 0 = true ∧
    freeTable.free p00 = (none, ⟨[⟨none, 1⟩], [0, 0]⟩) ∧
    (⟨[⟨none, 1⟩], [0, 0]⟩ : DynamicTinyPointerTable Nat) ≠ freeTable := by decide

/-- C1 corrected: `free(h)` returns absence and leaves the table fully
unchanged whenever `h`'s index is out of range or its generation
differs from the slot's; for a handle to an already-free slot it still
returns absence, but when the generation matches the code nonetheless
increments the generation and re-pushes the index (the mutation shown
in the counterexample), so the no-mutation part holds only for the
first two mismatch cases. -/
theorem free_mismatch_no_mutation (T : Type) (t : DynamicTinyPointerTable T) (p : TinyPointer) :
    ((∀ s : Slot T, t.slots[p.index]? = some s → s.generation ≠ p.generation) →
      t.free p = (none, t)) ∧
    (∀ s : Slot T, t.slots[p.index]? = some s → s.value = none → (t.free p).1 = none) := by
  constructor
  · intro hmis
    cases hx : t.slots[p.index]? with
    | none => exact free_eq_of_oob hx
    | some s => exact free_eq_of_mismatch hx (hmis s hx)
  · intro s hs hv
    by_cases hg : s.generation = p.generation
    · rw [free_eq_of_match hs hg]
      exact hv
    · rw [free_eq_of_mismatch hs hg]

/-- Witness for the corrected C1: an out-of-range handle is a no-op,
and a free-slot handle returns absence. -/
theorem free_mismatch_no_mutation_witness :
    occTable.free ⟨5, 0⟩ = (none, occTable) ∧ (freeTable.free p00).1 = none :=
  ⟨(free_mismatch_no_mutation Nat occTable ⟨5, 0⟩).1
     (by intro s hs; simp [occTable] at hs),
   (free_mismatch_no_mutation Nat freeTable p00).2 ⟨none, 0⟩ rfl rfl⟩

/-! ### C3: the free-list/slot invariant -/

/-- `new` establishes the invariant. -/
lemma wf_new {T : Type} (c : Nat) (t : DynamicTinyPointerTable T)
    (h : DynamicTinyPointerTable.new T c = some t) : t.WF := by
  unfold DynamicTinyPointerTable.new at h
  split at h
  · simp at h
  · cases h
    refine ⟨?_, ?_, List.nodup_range c⟩
    · intro i hi
      simp only [List.mem_range] at hi
      simpa using hi
    · intro i hi
      simp only [List.length_replicate] at hi
      simp [DynamicTinyPointerTable.isFree, List.getElem?_replicate, hi, List.mem_range]

/-- `resize` preserves the invariant. -/
lemma wf_resize {T : Type} {t : DynamicTinyPointerTable T} (h : t.WF) : t.resize.WF := by
  obtain ⟨h1, h2, h3⟩ := h
  refine ⟨?_, ?_, ?_⟩
  · intro i hi
    simp only [DynamicTinyPointerTable.resize, List.mem_append, List.mem_range'_1] at hi
    simp only [DynamicTinyPointerTable.resize, List.length_append, List.length_replicate]
    rcases hi with hi | hi
    · exact lt_of_lt_of_le (h1 i hi) (Nat.le_add_right _ _)
    · omega
  · intro i hi
    simp only [DynamicTinyPointerTable.resize, List.length_append, List.length_replicate] at hi
    by_cases hlt : i < t.slots.length
    · have hfs : t.resize.slots[i]? = t.slots[i]? := List.getElem?_append_left hlt
      have heq : DynamicTinyPointerTable.isFree t.resize i = DynamicTinyPointerTable.isFree t i := by
        unfold DynamicTinyPointerTable.isFree
        rw [hfs]
      rw [heq, h2 i hlt]
      simp only [DynamicTinyPointerTable.resize, List.mem_append, List.mem_range'_1]
      constructor
      · intro hm; exact Or.inl hm
      · intro hm
        rcases hm with hm | hm
        · exact hm
        · omega
    · have hge : t.slots.length ≤ i := Nat.le_of_not_lt hlt
      have hsl : t.resize.slots[i]? = some ⟨none, 0⟩ := by
        show (t.slots ++ _)[i]? = _
        rw [List.getElem?_append_right hge, List.getElem?_replicate]
        rw [if_pos (by omega)]
      have hfree : DynamicTinyPointerTable.isFree t.resize i = true := by
        unfold DynamicTinyPointerTable.isFree
        rw [hsl]
        rfl
      have hmem : i ∈ t.resize.free_list := by
        simp only [DynamicTinyPointerTable.resize, List.mem_append, List.mem_range'_1]
        right
        omega
      simp [hfree, hmem]
  · show (t.free_list ++ List.range' _ _).Nodup
    rw [List.nodup_append]
    refine ⟨h3, List.nodup_range' _ _, ?_⟩
    intro a ha hb
    rw [List.mem_range'_1] at hb
    exact absurd (h1 a ha) (by omega)

/-- `allocateAt` preserves the invariant. -/
lemma wf_allocateAt {T : Type} {t1 t' : DynamicTinyPointerTable T} {v : T} {p : TinyPointer}
    (h : t1.WF) (ha : t1.allocateAt v = some (p, t')) : t'.WF := by
  obtain ⟨idx, s, hl, hs, hp, ht'⟩ := allocateAt_some_elim ha
  subst ht'
  obtain ⟨ys, hys⟩ := List.getLast?_eq_some_iff.mp hl
  obtain ⟨h1, h2, h3⟩ := h
  have hidxlt : idx < t1.slots.length := (List.getElem?_eq_some_iff.mp hs).1
  have hdrop : t1.free_list.dropLast = ys := by
    rw [hys]
    exact List.dropLast_concat
  have hnys : ys.Nodup ∧ idx ∉ ys := by
    have h3' := h3
    rw [hys, List.nodup_append] at h3'
    exact ⟨h3'.1, fun hmem => h3'.2.2 hmem (List.mem_singleton_self idx)⟩
  refine ⟨?_, ?_, ?_⟩
  · intro i hi
    show i < (t1.slots.set idx _).length
    rw [List.length_set]
    apply h1
    rw [hys]
    rw [hdrop] at hi
    exact List.mem_append_left _ hi
  · intro i hlen
    rw [List.length_set] at hlen
    by_cases hii : i = idx
    · subst hii
      have hfs : (t1.slots.set i ⟨some v, s.generation⟩)[i]? = some ⟨some v, s.generation⟩ :=
        List.getElem?_set_self hidxlt
      have hfalse : DynamicTinyPointerTable.isFree
          (⟨t1.slots.set i ⟨some v, s.generation⟩, t1.free_list.dropLast⟩ :
            DynamicTinyPointerTable T) i = false := by
        unfold DynamicTinyPointerTable.isFree
        rw [hfs]
        rfl
      rw [hfalse]
      show false = true ↔ i ∈ t1.free_list.dropLast
      rw [hdrop]
      simp [hnys.2]
    · have hfs : (t1.slots.set idx ⟨some v, s.generation⟩)[i]? = t1.slots[i]? :=
        List.getElem?_set_ne (Ne.symm hii)
      have heq : DynamicTinyPointerTable.isFree
          (⟨t1.slots.set idx ⟨some v, s.generation⟩, t1.free_list.dropLast⟩ :
            DynamicTinyPointerTable T) i = DynamicTinyPointerTable.isFree t1 i := by
        unfold DynamicTinyPointerTable.isFree
        rw [hfs]
      rw [heq, h2 i hlen]
      show i ∈ t1.free_list ↔ i ∈ t1.free_list.dropLast
      rw [hdrop, hys, List.mem_append, List.mem_singleton]
      simp [hii]
  · show (t1.free_list.dropLast).Nodup
    rw [hdrop]
    exact hnys.1

/-- `allocate` preserves the invariant. -/
lemma wf_allocate {T : Type} {t t' : DynamicTinyPointerTable T} {v : T} {p : TinyPointer}
    (h : t.WF) (ha : t.allocate v = some (p, t')) : t'.WF := by
  unfold DynamicTinyPointerTable.allocate at ha
  by_cases hem : t.free_list.isEmpty = true
  · rw [if_pos hem] at ha
    exact wf_allocateAt (wf_resize h) ha
  · rw [if_neg hem] at ha
    exact wf_allocateAt h ha

/-- `free` preserves the invariant provided the handle's slot is
occupied whenever its generation matches (the condition the
counterexample shows to be necessary). -/
lemma wf_free {T : Type} {t : DynamicTinyPointerTable T} {p : TinyPointer}
    (h : t.WF)
    (hocc : ∀ s : Slot T, t.slots[p.index]? = some s → s.generation = p.generation →
      s.value ≠ none) :
    (t.free p).2.WF := by
  obtain ⟨h1, h2, h3⟩ := h
  cases hx : t.slots[p.index]? with
  | none =>
    rw [free_eq_of_oob hx]
    exact ⟨h1, h2, h3⟩
  | some s =>
    by_cases hg : s.generation = p.generation
    · have hocc' := hocc s hx hg
      have hlt : p.index < t.slots.length := (List.getElem?_eq_some_iff.mp hx).1
      have hnotmem : p.index ∉ t.free_list := by
        intro hmem
        have hfree := (h2 p.index hlt).mpr hmem
        unfold DynamicTinyPointerTable.isFree at hfree
        rw [hx] at hfree
        exact hocc' (Option.isNone_iff_eq_none.mp hfree)
      rw [free_eq_of_match hx hg]
      refine ⟨?_, ?_, ?_⟩
      · intro i hi
        show i < (t.slots.set p.index _).length
        rw [List.length_set]
        rw [List.mem_append, List.mem_singleton] at hi
        rcases hi with hi | hi
        · exact h1 i hi
        · exact hi ▸ hlt
      · intro i hlen
        rw [List.length_set] at hlen
        by_cases hip : i = p.index
        · subst hip
          have hfs : (t.slots.set p.index ⟨none, (s.generation + 1) % u32Size⟩)[p.index]? =
              some ⟨none, (s.generation + 1) % u32Size⟩ := List.getElem?_set_self hlt
          have htrue : DynamicTinyPointerTable.isFree
              (⟨t.slots.set p.index ⟨none, (s.generation + 1) % u32Size⟩,
                t.free_list ++ [p.index]⟩ : DynamicTinyPointerTable T) p.index = true := by
            unfold DynamicTinyPointerTable.isFree
            rw [hfs]
            rfl
          have hmem : p.index ∈ t.free_list ++ [p.index] :=
            List.mem_append_right _ (List.mem_singleton_self p.index)
          simp [htrue, hmem]
        · have hfs : (t.slots.set p.index ⟨none, (s.generation + 1) % u32Size⟩)[i]? =
              t.slots[i]? := List.getElem?_set_ne (Ne.symm hip)
          have heq : DynamicTinyPointerTable.isFree
              (⟨t.slots.set p.index ⟨none, (s.generation + 1) % u32Size⟩,
                t.free_list ++ [p.index]⟩ : DynamicTinyPointerTable T) i =
              DynamicTinyPointerTable.isFree t i := by
            unfold DynamicTinyPointerTable.isFree
            rw [hfs]
          rw [heq, h2 i hlen]
          show i ∈ t.free_list ↔ i ∈ t.free_list ++ [p.index]
          rw [List.mem_append, List.mem_singleton]
          simp [hip]
      · show (t.free_list ++ [p.index]).Nodup
        rw [List.nodup_append]
        refine ⟨h3, List.nodup_singleton _, ?_⟩
        intro a ha hb
        rw [List.mem_singleton] at hb
        exact hnotmem (hb ▸ ha)
    · rw [free_eq_of_mismatch hx hg]
      exact ⟨h1, h2, h3⟩

/-! ### Generation wraparound: one allocate/free cycle bumps a slot's
generation by one modulo `2^32` -/

/-- `get` when the slot matches. -/
lemma get_eq_of_slot {T : Type} {t : DynamicTinyPointerTable T} {p : TinyPointer} {s : Slot T}
    (hs : t.slots[p.index]? = some s) (hg : s.generation = p.generation) :
    t.get p = s.value := by
  unfold DynamicTinyPointerTable.get
  rw [hs]
  simp [hg]

/-- `get` on a generation mismatch. -/
lemma get_eq_none_of_mismatch {T : Type} {t : DynamicTinyPointerTable T} {p : TinyPointer}
    {s : Slot T} (hs : t.slots[p.index]? = some s) (hg : s.generation ≠ p.generation) :
    t.get p = none := by
  unfold DynamicTinyPointerTable.get
  rw [hs]
  simp [hg]

/-- `get` out of range. -/
lemma get_eq_none_of_oob {T : Type} {t : DynamicTinyPointerTable T} {p : TinyPointer}
    (hs : t.slots[p.index]? = none) : t.get p = none := by
  unfold DynamicTinyPointerTable.get
  rw [hs]

/-- The wrapped successor of a `u32` value never equals the value
itself (one step of `wrapping_add(1)` always changes the generation). -/
lemma succ_mod_u32_ne (g : Nat) : (g + 1) % u32Size ≠ g := by
  simp only [u32Size]
  omega

/-- One `step` on a one-slot free table bumps the generation by one,
wrapping at `2^32`. -/
lemma step_gen (g : Nat) :
    step ⟨[⟨none, g⟩], [0]⟩ = ⟨[⟨none, (g + 1) % u32Size⟩], [0]⟩ := by
  have hne : (⟨[⟨none, g⟩], [0]⟩ :
      DynamicTinyPointerTable Nat).free_list.isEmpty = false := rfl
  have hl : (⟨[⟨none, g⟩], [0]⟩ :
      DynamicTinyPointerTable Nat).free_list.getLast? = some 0 := List.getLast?_singleton 0
  have hs : (⟨[⟨none, g⟩], [0]⟩ :
      DynamicTinyPointerTable Nat).slots[(0 : Nat)]? = some ⟨none, g⟩ := rfl
  have ha : DynamicTinyPointerTable.allocate (⟨[⟨none, g⟩], [0]⟩ :
      DynamicTinyPointerTable Nat) 0 = some (⟨0, g⟩, ⟨[⟨some 0, g⟩], []⟩) := by
    rw [allocate_of_not_empty 0 hne, allocateAt_eq hl hs]
    simp
  have hsf : (⟨[⟨some 0, g⟩], []⟩ :
      DynamicTinyPointerTable Nat).slots[(⟨0, g⟩ : TinyPointer).index]? =
      some ⟨some 0, g⟩ := rfl
  have hf : DynamicTinyPointerTable.free (⟨[⟨some 0, g⟩], []⟩ :
      DynamicTinyPointerTable Nat) ⟨0, g⟩ =
      (some 0, ⟨[⟨none, (g + 1) % u32Size⟩], [0]⟩) := by
    rw [free_eq_of_match hsf rfl]
    simp
  unfold step
  rw [ha]
  simp [hf]

/-- Iterating `step` `k` times adds `k` to the generation mod `2^32`. -/
lemma step_iter (g k : Nat) :
    step^[k] ⟨[⟨none, g % u32Size⟩], [0]⟩ = ⟨[⟨none, (g + k) % u32Size⟩], [0]⟩ := by
  induction k generalizing g with
  | zero => simp
  | succ k ih =>
    rw [Function.iterate_succ_apply, step_gen, Nat.mod_add_mod]
    have harith : g + 1 + k = g + (k + 1) := by omega
    rw [ih (g + 1), harith]

/-- After `2^32 - 1` further cycles, a slot whose generation is 1 wraps
back to generation 0, still free. -/
lemma wrap_back : step^[u32Size - 1] ⟨[⟨none, 1⟩], [0]⟩ = ⟨[⟨none, 0⟩], [0]⟩ := by
  have h1 : (1 : Nat) % u32Size = 1 := by decide
  have h2 := step_iter 1 (u32Size - 1)
  rw [h1] at h2
  rw [h2]
  decide

/-! ### C3 -/

/-- C3 counterexample: starting from the reachable `new(1)` table, one
honest trace — `allocate` issues `⟨0, 0⟩`, `free ⟨0, 0⟩` succeeds, then
`2^32 - 1` allocate/free cycles (each using only the handle it was
itself issued) wrap the slot's generation back to 0 — reaches the state
`⟨[⟨none, 0⟩], [0]⟩` again; there, `free` with the originally issued
handle `⟨0, 0⟩` produces a table whose free list is `[0, 0]`: index 0
appears twice, violating the free-list/free-slot 1:1 correspondence. -/
theorem invariant_violation_cex :
    DynamicTinyPointerTable.new Nat 1 = some freeTable ∧
    freeTable.allocate 5 = some (⟨0, 0⟩, ⟨[⟨some 5, 0⟩], []⟩) ∧
    DynamicTinyPointerTable.free (⟨[⟨some 5, 0⟩], []⟩ : DynamicTinyPointerTable Nat) ⟨0, 0⟩ =
      (some 5, ⟨[⟨none, 1⟩], [0]⟩) ∧
    step^[u32Size - 1] ⟨[⟨none, 1⟩], [0]⟩ = ⟨[⟨none, 0⟩], [0]⟩ ∧
    DynamicTinyPointerTable.free (⟨[⟨none, 0⟩], [0]⟩ : DynamicTinyPointerTable Nat) ⟨0, 0⟩ =
      (none, ⟨[⟨none, 1⟩], [0, 0]⟩) ∧
    ¬ DynamicTinyPointerTable.WF (⟨[⟨none, 1⟩], [0, 0]⟩ : DynamicTinyPointerTable Nat) :=
  ⟨by decide, by decide, by decide, wrap_back, by decide, by decide⟩

/-- C3 corrected: the invariant — every free-list index is in range and
free, a slot is free iff its index is on the (duplicate-free) free
list, and `allocated() = capacity() - |free_list|` — is established by
`new` and preserved by `resize`, by `allocate`, and by every `free`
whose handle's slot is occupied whenever the generation matches; the
remaining case (generation match on a free slot, reachable only through
generation wraparound or a synthesized handle) silently inserts a
duplicate free-list entry, as the counterexample shows.  `get` and
`get_mut` do not modify the table.  The `allocated` identity holds
unconditionally by the definition of `allocated`. -/
theorem invariant_preserved (T : Type) :
    (∀ (c : Nat) (t : DynamicTinyPointerTable T),
      DynamicTinyPointerTable.new T c = some t → t.WF) ∧
    (∀ t : DynamicTinyPointerTable T, t.WF → t.resize.WF) ∧
    (∀ (t t' : DynamicTinyPointerTable T) (v : T) (p : TinyPointer),
      t.WF → t.allocate v = some (p, t') → t'.WF) ∧
    (∀ (t : DynamicTinyPointerTable T) (p : TinyPointer), t.WF →
      (∀ s : Slot T, t.slots[p.index]? = some s → s.generation = p.generation →
        s.value ≠ none) →
      (t.free p).2.WF) ∧
    (∀ t : DynamicTinyPointerTable T,
      t.allocated = t.capacity - t.free_list.length) :=
  ⟨wf_new, fun _ => wf_resize, fun _ _ _ _ h ha => wf_allocate h ha,
   fun _ _ h hocc => wf_free h hocc, fun _ => rfl⟩

/-- Witness for the corrected C3 at concrete tables. -/
theorem invariant_preserved_witness :
    DynamicTinyPointerTable.WF freeTable ∧
    DynamicTinyPointerTable.WF freeTable.resize ∧
    DynamicTinyPointerTable.WF (⟨[⟨some 5, 0⟩], []⟩ : DynamicTinyPointerTable Nat) ∧
    DynamicTinyPointerTable.WF (occTable.free p00).2 :=
  ⟨(invariant_preserved Nat).1 1 freeTable (by decide),
   (invariant_preserved Nat).2.1 freeTable (by decide),
   (invariant_preserved Nat).2.2.1 freeTable ⟨[⟨some 5, 0⟩], []⟩ 5 p00 (by decide) (by decide),
   (invariant_preserved Nat).2.2.2.1 occTable p00 (by decide)
     (by intro s hs hg; simp [occTable, p00] at hs; subst hs; simp)⟩

/-! ### C5 -/

/-- C5 counterexample: `free ⟨0, 0⟩` on the (reachable) occupied table
succeeds once, returning `Some 5`; after intervening operations —
`2^32 - 1` allocate/free cycles that wrap the slot's generation back to
0, then one `allocate` — the very same handle value `⟨0, 0⟩` is live
again: `get`, `get_mut` and `free` with it all return `some 7`, not
absence. -/
theorem stale_handle_cex :
    DynamicTinyPointerTable.free occTable p00 = (some 5, ⟨[⟨none, 1⟩], [0]⟩) ∧
    step^[u32Size - 1] ⟨[⟨none, 1⟩], [0]⟩ = ⟨[⟨none, 0⟩], [0]⟩ ∧
    DynamicTinyPointerTable.allocate (⟨[⟨none, 0⟩], [0]⟩ : DynamicTinyPointerTable Nat) 7 =
      some (⟨0, 0⟩, ⟨[⟨some 7, 0⟩], []⟩) ∧
    DynamicTinyPointerTable.get (⟨[⟨some 7, 0⟩], []⟩ : DynamicTinyPointerTable Nat) p00 =
      some 7 ∧
    DynamicTinyPointerTable.get_mut (⟨[⟨some 7, 0⟩], []⟩ : DynamicTinyPointerTable Nat) p00 =
      some 7 ∧
    (DynamicTinyPointerTable.free (⟨[⟨some 7, 0⟩], []⟩ : DynamicTinyPointerTable Nat) p00).1 =
      some 7 :=
  ⟨by decide, wrap_back, by decide, by decide, by decide, by decide⟩

/-- C5 corrected: after `free(h)` succeeds, `get(h)`, `get_mut(h)` and
`free(h)` all return absence — immediately (the slot's generation has
just moved off `h.generation`), and in any later state as long as the
slot's generation has not come back to `h.generation` (which only a
`2^32`-fold wraparound of `free` calls on that slot can cause, as the
counterexample shows); `free` in those states is also a strict no-op. -/
theorem free_invalidates (T : Type) (t t' : DynamicTinyPointerTable T) (p : TinyPointer)
    (v : T) (hf : t.free p = (some v, t')) :
    (t'.get p = none ∧ t'.get_mut p = none ∧ t'.free p = (none, t')) ∧
    (∀ t2 : DynamicTinyPointerTable T,
      (∀ s : Slot T, t2.slots[p.index]? = some s → s.generation ≠ p.generation) →
      t2.get p = none ∧ t2.get_mut p = none ∧ t2.free p = (none, t2)) := by
  have habs : ∀ t2 : DynamicTinyPointerTable T,
      (∀ s : Slot T, t2.slots[p.index]? = some s → s.generation ≠ p.generation) →
      t2.get p = none ∧ t2.get_mut p = none ∧ t2.free p = (none, t2) := by
    intro t2 hmis
    have hget : t2.get p = none := by
      cases hx : t2.slots[p.index]? with
      | none => exact get_eq_none_of_oob hx
      | some s => exact get_eq_none_of_mismatch hx (hmis s hx)
    refine ⟨hget, (get_mut_eq_get t2 p).trans hget, ?_⟩
    cases hx : t2.slots[p.index]? with
    | none => exact free_eq_of_oob hx
    | some s => exact free_eq_of_mismatch hx (hmis s hx)
  refine ⟨?_, habs⟩
  obtain ⟨s, hs, hg, hv, ht'⟩ := free_some_elim hf
  subst ht'
  have hlen : p.index < t.slots.length := (List.getElem?_eq_some_iff.mp hs).1
  have hs' : (t.slots.set p.index ⟨none, (s.generation + 1) % u32Size⟩)[p.index]? =
      some ⟨none, (s.generation + 1) % u32Size⟩ := List.getElem?_set_self hlen
  apply habs
  intro s2 hs2
  have hs2' : (t.slots.set p.index ⟨none, (s.generation + 1) % u32Size⟩)[p.index]? =
      some s2 := hs2
  rw [hs'] at hs2'
  cases hs2'
  show (s.generation + 1) % u32Size ≠ p.generation
  rw [← hg]
  exact succ_mod_u32_ne s.generation

/-- Witness for the corrected C5 at a concrete table. -/
theorem free_invalidates_witness :
    (((occTable.free p00).2.get p00 = none ∧
      (occTable.free p00).2.get_mut p00 = none ∧
      (occTable.free p00).2.free p00 = (none, (occTable.free p00).2)) ∧
     (∀ t2 : DynamicTinyPointerTable Nat,
       (∀ s : Slot Nat, t2.slots[p00.index]? = some s → s.generation ≠ p00.generation) →
       t2.get p00 = none ∧ t2.get_mut p00 = none ∧ t2.free p00 = (none, t2))) :=
  free_invalidates Nat occTable (occTable.free p00).2 p00 5 (by decide)

/-! ### C6 -/

/-- C6 counterexample: the handle `⟨0, 0⟩` is issued for slot 0's first
occupancy period and freed; after `2^32 - 1` honest allocate/free
cycles the slot's generation wraps back to 0, and the next `allocate`
reuses index 0 yet returns a handle equal to the old one — `⟨0, 0⟩` —
so the "new handle differs from every earlier handle" and "the old
handle remains invalid" parts both fail: `get` with the old handle
returns the new value. -/
theorem generational_isolation_cex :
    freeTable.allocate 5 = some (⟨0, 0⟩, ⟨[⟨some 5, 0⟩], []⟩) ∧
    DynamicTinyPointerTable.free (⟨[⟨some 5, 0⟩], []⟩ : DynamicTinyPointerTable Nat) ⟨0, 0⟩ =
      (some 5, ⟨[⟨none, 1⟩], [0]⟩) ∧
    step^[u32Size - 1] ⟨[⟨none, 1⟩], [0]⟩ = ⟨[⟨none, 0⟩], [0]⟩ ∧
    DynamicTinyPointerTable.allocate (⟨[⟨none, 0⟩], [0]⟩ : DynamicTinyPointerTable Nat) 7 =
      some (⟨0, 0⟩, ⟨[⟨some 7, 0⟩], []⟩) ∧
    DynamicTinyPointerTable.get (⟨[⟨some 7, 0⟩], []⟩ : DynamicTinyPointerTable Nat) ⟨0, 0⟩ =
      some 7 :=
  ⟨by decide, by decide, wrap_back, by decide, by decide⟩

/-- C6 corrected: whenever an `allocate` reuses index `h.index` (it is
the popped `chosenIndex`, an in-range slot of the table) in a state
where that slot's generation differs from `h.generation` — that is,
the generation has not wrapped back to `h`'s, which holds after the
`free` of `h` and under any further operations short of a full `2^32`
wraparound of that slot — the returned handle differs from `h` (and
from every handle of `h`'s occupancy period, since those all carry
`h.generation`), the old handle is invalid (`get`/`get_mut` return
absence) while the new one is valid (`get` returns the new value).
The `h.index < 2^32` hypothesis holds for every handle the code can
build (the index field is `u32`). -/
theorem generational_isolation (T : Type) (t1 t2 : DynamicTinyPointerTable T)
    (h q : TinyPointer) (w : T)
    (ha : t1.allocate w = some (q, t2))
    (hreuse : t1.chosenIndex = some h.index)
    (hcap : h.index < t1.capacity)
    (hgen : ∀ s : Slot T, t1.slots[h.index]? = some s → s.generation ≠ h.generation)
    (hidx : h.index < u32Size) :
    q.index = h.index ∧ q ≠ h ∧ t2.get h = none ∧ t2.get_mut h = none ∧ t2.get q = some w := by
  unfold DynamicTinyPointerTable.allocate at ha
  unfold DynamicTinyPointerTable.chosenIndex at hreuse
  obtain ⟨idx, s, hl, hs, hp, ht2⟩ := allocateAt_some_elim ha
  rw [hl] at hreuse
  injection hreuse with hie
  subst hie
  have hslot : t1.slots[h.index]? = some s := by
    by_cases hem : t1.free_list.isEmpty = true
    · rw [if_pos hem] at hs
      have hres : t1.resize.slots[h.index]? = t1.slots[h.index]? :=
        List.getElem?_append_left hcap
      rw [hres] at hs
      exact hs
    · rw [if_neg hem] at hs
      exact hs
  have hgne : s.generation ≠ h.generation := hgen s hslot
  subst hp ht2
  have hmod : h.index % u32Size = h.index := Nat.mod_eq_of_lt hidx
  have hlen : h.index < (if t1.free_list.isEmpty then t1.resize else t1).slots.length :=
    (List.getElem?_eq_some_iff.mp hs).1
  have hsh : ((if t1.free_list.isEmpty then t1.resize else t1).slots.set h.index
      ⟨some w, s.generation⟩)[h.index]? = some ⟨some w, s.generation⟩ :=
    List.getElem?_set_self hlen
  have hget_old : DynamicTinyPointerTable.get
      (⟨(if t1.free_list.isEmpty then t1.resize else t1).slots.set h.index
          ⟨some w, s.generation⟩,
        (if t1.free_list.isEmpty then t1.resize else t1).free_list.dropLast⟩ :
        DynamicTinyPointerTable T) h = none :=
    get_eq_none_of_mismatch hsh hgne
  have hproj : (⟨h.index % u32Size, s.generation⟩ : TinyPointer).index = h.index := hmod
  have hsq : (⟨(if t1.free_list.isEmpty then t1.resize else t1).slots.set h.index
          ⟨some w, s.generation⟩,
        (if t1.free_list.isEmpty then t1.resize else t1).free_list.dropLast⟩ :
        DynamicTinyPointerTable T).slots[
        (⟨h.index % u32Size, s.generation⟩ : TinyPointer).index]? =
      some ⟨some w, s.generation⟩ := by
    rw [hproj]
    exact hsh
  refine ⟨hmod, ?_, hget_old, (get_mut_eq_get _ h).trans hget_old, ?_⟩
  · intro hqh
    exact hgne (congrArg TinyPointer.generation hqh)
  · exact get_eq_of_slot hsq rfl

/-- Witness for the corrected C6 at a concrete table: the slot was
freed earlier (generation already 1, handle `⟨0, 0⟩` stale), and the
reusing allocate is not required to be the operation immediately after
that free. -/
theorem generational_isolation_witness :
    (⟨0, 1⟩ : TinyPointer).index = p00.index ∧
    (⟨0, 1⟩ : TinyPointer) ≠ p00 ∧
    DynamicTinyPointerTable.get (⟨[⟨some 7, 1⟩], []⟩ : DynamicTinyPointerTable Nat) p00 =
      none ∧
    DynamicTinyPointerTable.get_mut (⟨[⟨some 7, 1⟩], []⟩ : DynamicTinyPointerTable Nat) p00 =
      none ∧
    DynamicTinyPointerTable.get (⟨[⟨some 7, 1⟩], []⟩ : DynamicTinyPointerTable Nat) ⟨0, 1⟩ =
      some 7 :=
  generational_isolation Nat ⟨[⟨none, 1⟩], [0]⟩ ⟨[⟨some 7, 1⟩], []⟩ p00 ⟨0, 1⟩ 7
    (by decide) (by decide) (by decide)
    (by intro s hs; simp [p00] at hs; subst hs; decide)
    (by decide)
